import Mathlib

/-!
Verification of the MoneyForward ME CSV ingestion / normalization core
(`moneyforward_analyzer/csv_parser.py`) against its natural-language
specification.

The Python source is shallowly embedded: strings are `List Char`, a cell of
the decoded pandas table is `Option (List Char)` (`none` models a pandas NaN
produced by the `na_values` configuration of `read_csv`), machine integers
are `Int`/`Nat` (Python integers are unbounded, so no wrap-around modelling
is required), and fallible code returns `Option`/`Except`.
-/

namespace MFA

/-- Strings of the embedded program: Python strings as lists of characters. -/
abbrev Str := List Char

/-! ### Character helpers -/

/-- Decimal digit test, `'0'` to `'9'` (codepoints 48–57). -/
def isDig (c : Char) : Bool := 48 ≤ c.toNat && c.toNat ≤ 57

/-- Value of a decimal digit character. -/
def dval (c : Char) : Nat := c.toNat - 48

/-- The decimal digit character for `n < 10`. -/
def dchar (n : Nat) : Char := Char.ofNat (48 + n)

/-- Python `str.strip()` whitespace test: the Unicode whitespace codepoints
stripped by Python (ASCII whitespace, the C1 separators, NBSP, the Unicode
space block, line/paragraph separators, narrow/medium spaces, ideographic
space). -/
def isPySpace (c : Char) : Bool :=
  let n := c.toNat
  (9 ≤ n && n ≤ 13) || (28 ≤ n && n ≤ 31) || n = 32 || n = 133 || n = 160 ||
    n = 0x1680 || (0x2000 ≤ n && n ≤ 0x200A) || n = 0x2028 || n = 0x2029 ||
    n = 0x202F || n = 0x205F || n = 0x3000

/-- Python `str.strip()`: drop whitespace from both ends. -/
def pyStrip (s : Str) : Str :=
  ((s.dropWhile isPySpace).reverse.dropWhile isPySpace).reverse

/-- Python `str.lower()` restricted to the characters this program compares
after lowercasing (`"1" / "true" / "yes" / "○" / "◯"`): ASCII letters are
lowercased, everything else relevant here is fixed by `lower()`. -/
def pyLowerChar (c : Char) : Char :=
  if 65 ≤ c.toNat && c.toNat ≤ 90 then Char.ofNat (c.toNat + 32) else c

/-- Python `str.lower()` on a string, see `pyLowerChar`. -/
def pyLower (s : Str) : Str := s.map pyLowerChar

/-! ### Calendar dates

`datetime.strptime` builds a `datetime.datetime`; construction validates the
calendar (`1 <= year <= 9999`, month range, day-of-month range with leap
years). The embedding keeps only the date triple, since the parsed formats
carry no time-of-day. -/

/-- A calendar date as produced by `datetime.strptime` for pure date formats. -/
structure Date where
  year : Nat
  month : Nat
  day : Nat
deriving DecidableEq, Repr

/-- Gregorian leap-year rule used by `datetime`. -/
def isLeap (y : Nat) : Bool := y % 4 = 0 && (y % 100 ≠ 0 || y % 400 = 0)

/-- Number of days of month `m` in year `y`. -/
def daysInMonth (y m : Nat) : Nat :=
  if m = 2 then (if isLeap y then 29 else 28)
  else if m = 4 || m = 6 || m = 9 || m = 11 then 30
  else 31

/-- Validity of a date triple under `datetime.datetime`'s constructor
(`MINYEAR = 1`, `MAXYEAR = 9999`). -/
def validDate (d : Date) : Bool :=
  1 ≤ d.year && d.year ≤ 9999 && 1 ≤ d.month && d.month ≤ 12 &&
    1 ≤ d.day && d.day ≤ daysInMonth d.year d.month

/-! ### `datetime.strptime` format-directive matchers

CPython's `_strptime` compiles each directive to a regular expression and
matches the whole string, then constructs a `datetime`:
  `%Y` compiles to four digits;
  `%m` compiles to ordered alternatives `1[0-2] | 0[1-9] | [1-9]`;
  `%d` compiles to `3[0-1] | [1-2][0-9] | 0[1-9] | [1-9] | space[1-9]`;
literal characters match themselves.  In the five formats used by
`CSVParser._parse_date` every numeric directive is followed by a
non-digit literal or by the end of the pattern, so the ordered,
committed-choice matchers below compute exactly what the backtracking
regular expressions compute on every input. -/

/-- Matcher for `%Y`: exactly four decimal digits. -/
def matchY : Str → Option (Nat × Str)
  | c1 :: c2 :: c3 :: c4 :: r =>
    if isDig c1 && isDig c2 && isDig c3 && isDig c4 then
      some ((((dval c1 * 10 + dval c2) * 10 + dval c3) * 10 + dval c4), r)
    else none
  | _ => none

/-- Matcher for `%m`: alternatives `1[0-2] | 0[1-9] | [1-9]`, in order. -/
def matchM : Str → Option (Nat × Str)
  | c1 :: c2 :: r =>
    if c1 = '1' && ('0' ≤ c2 && c2 ≤ '2') then some (10 + dval c2, r)
    else if c1 = '0' && ('1' ≤ c2 && c2 ≤ '9') then some (dval c2, r)
    else if '1' ≤ c1 && c1 ≤ '9' then some (dval c1, c2 :: r)
    else none
  | [c1] => if '1' ≤ c1 && c1 ≤ '9' then some (dval c1, []) else none
  | [] => none

/-- Matcher for `%d`: alternatives
`3[0-1] | [1-2][0-9] | 0[1-9] | [1-9] | space[1-9]`, in order. -/
def matchD : Str → Option (Nat × Str)
  | c1 :: c2 :: r =>
    if c1 = '3' && ('0' ≤ c2 && c2 ≤ '1') then some (30 + dval c2, r)
    else if ('1' ≤ c1 && c1 ≤ '2') && isDig c2 then some (dval c1 * 10 + dval c2, r)
    else if c1 = '0' && ('1' ≤ c2 && c2 ≤ '9') then some (dval c2, r)
    else if '1' ≤ c1 && c1 ≤ '9' then some (dval c1, c2 :: r)
    else if c1 = ' ' && ('1' ≤ c2 && c2 ≤ '9') then some (dval c2, r)
    else none
  | [c1] => if '1' ≤ c1 && c1 ≤ '9' then some (dval c1, []) else none
  | [] => none

/-- Matcher for a literal format character. -/
def matchLit (c : Char) : Str → Option Str
  | c1 :: r => if c1 = c then some r else none
  | [] => none

/-- One `strptime` attempt for a `%Y sep1 %m sep2 %d [tail]` pattern:
the regular expression must consume the whole string, then `datetime`
construction validates the calendar triple. -/
def tryYmd (sep1 sep2 : Char) (tail : Str) (s : Str) : Option Date := do
  let (y, r1) ← matchY s
  let r2 ← matchLit sep1 r1
  let (m, r3) ← matchM r2
  let r4 ← matchLit sep2 r3
  let (d, r5) ← matchD r4
  if r5 = tail && validDate ⟨y, m, d⟩ then some ⟨y, m, d⟩ else none

/-- One `strptime` attempt for the `%m/%d/%Y` pattern. -/
def tryMdY (s : Str) : Option Date := do
  let (m, r1) ← matchM s
  let r2 ← matchLit '/' r1
  let (d, r3) ← matchD r2
  let r4 ← matchLit '/' r3
  let (y, r5) ← matchY r4
  if r5 = [] && validDate ⟨y, m, d⟩ then some ⟨y, m, d⟩ else none

/-- One `strptime` attempt for the `%d/%m/%Y` pattern. -/
def tryDmY (s : Str) : Option Date := do
  let (d, r1) ← matchD s
  let r2 ← matchLit '/' r1
  let (m, r3) ← matchM r2
  let r4 ← matchLit '/' r3
  let (y, r5) ← matchY r4
  if r5 = [] && validDate ⟨y, m, d⟩ then some ⟨y, m, d⟩ else none

/-- The explicit-format stage of `CSVParser._parse_date`: strip the input,
then try `%Y/%m/%d`, `%Y-%m-%d`, `%Y年%m月%d日`, `%m/%d/%Y`, `%d/%m/%Y` in
that order, first match wins.  The Python code falls back to the permissive
`pandas.to_datetime` parser only when every explicit format has failed; that
external-library fallback is outside this embedding, and every theorem below
evaluates this function only on inputs where one of the five explicit
formats matches, so the fallback is never reached there. -/
def parseDateExplicit (s0 : Str) : Option Date :=
  let s := pyStrip s0
  (tryYmd '/' '/' [] s) <|> (tryYmd '-' '-' [] s) <|>
    (tryYmd '年' '月' ['日'] s) <|> (tryMdY s) <|> (tryDmY s)

/-! ### Renderings of a date in the five accepted formats (claim side)

These render a date the way the format names of the specification read:
four-digit year and zero-padded two-digit month and day. -/

/-- Zero-padded two-digit decimal rendering. -/
def pad2 (n : Nat) : Str := [dchar (n / 10), dchar (n % 10)]

/-- Zero-padded four-digit decimal rendering. -/
def pad4 (n : Nat) : Str :=
  [dchar (n / 1000), dchar (n / 100 % 10), dchar (n / 10 % 10), dchar (n % 10)]

/-- Render a date as `YYYY/MM/DD`. -/
def renderYmdSlash (d : Date) : Str :=
  pad4 d.year ++ '/' :: pad2 d.month ++ '/' :: pad2 d.day

/-- Render a date as `YYYY-MM-DD`. -/
def renderYmdDash (d : Date) : Str :=
  pad4 d.year ++ '-' :: pad2 d.month ++ '-' :: pad2 d.day

/-- Render a date as `YYYY年MM月DD日`. -/
def renderJp (d : Date) : Str :=
  pad4 d.year ++ '年' :: pad2 d.month ++ '月' :: pad2 d.day ++ ['日']

/-- Render a date as `MM/DD/YYYY`. -/
def renderMdY (d : Date) : Str :=
  pad2 d.month ++ '/' :: pad2 d.day ++ '/' :: pad4 d.year

/-- Render a date as `DD/MM/YYYY`. -/
def renderDmY (d : Date) : Str :=
  pad2 d.day ++ '/' :: pad2 d.month ++ '/' :: pad4 d.year

/-! ### Python `int()` and `CSVParser._parse_amount` -/

/-- Digit loop of Python `int()` after the first digit: decimal digits, with
single underscores allowed only between digits.  The flag records whether
the previous character was a digit (an underscore is legal only then, and
the string may only end on a digit). -/
def digitsValGo : Str → Nat → Bool → Option Nat
  | [], acc, lastDigit => if lastDigit then some acc else none
  | c :: rest, acc, lastDigit =>
    if isDig c then digitsValGo rest (acc * 10 + dval c) true
    else if c = '_' && lastDigit then digitsValGo rest acc false
    else none

/-- Digit loop entry point (the first digit was just consumed). -/
def digitsVal (l : Str) (acc : Nat) : Option Nat := digitsValGo l acc true

/-- Python `int()` on an unsigned body: at least one digit, then `digitsVal`. -/
def pyIntNat : Str → Option Nat
  | c :: rest => if isDig c then digitsVal rest (dval c) else none
  | [] => none

/-- Python `int(str)` in base 10: strip whitespace, optional single sign,
then a nonempty digit sequence (underscores allowed between digits);
anything else raises `ValueError`, modelled as `none`. -/
def pyInt (s0 : Str) : Option Int :=
  match pyStrip s0 with
  | [] => none
  | c :: rest =>
    if c = '-' then (pyIntNat rest).map (fun v => -(v : Int))
    else if c = '+' then (pyIntNat rest).map (fun v => (v : Int))
    else (pyIntNat (c :: rest)).map (fun v => (v : Int))

/-- The characters removed by the cleaning step of `_parse_amount`
(half/full-width yen signs, the yen word, thousands separator, spaces). -/
def amountNoise : Str := ['¥', ',', '円', '￥', ' ']

/-- `CSVParser._parse_amount`: `none` cell (pandas NaN) and empty/whitespace
strings yield 0; otherwise currency noise is removed, everything from the
first `.` onward is dropped (`split(".")[0]`), and the remainder goes
through `int()`; a failing `int()` (`ValueError`) is modelled as `none`. -/
def parseAmount (cell : Option Str) : Option Int :=
  match cell with
  | none => some 0
  | some s0 =>
    let s := pyStrip s0
    if s = [] then some 0
    else
      let cleaned := s.filter (fun c => decide (c ∉ amountNoise))
      let cleaned2 :=
        if decide ('.' ∈ cleaned) then cleaned.takeWhile (fun c => decide (c ≠ '.'))
        else cleaned
      pyInt cleaned2

/-! ### Booleans and strings per row -/

/-- The strings `CSVParser._parse_boolean` accepts as true (after strip and
lower): `"1"`, `"true"`, `"yes"`, and the two circle-mark glyphs. -/
def truthyStrings : List Str :=
  [['1'], "true".data, "yes".data, ['○'], ['◯']]

/-- `CSVParser._parse_boolean`: NaN is false; otherwise the stripped,
lowercased string must be one of `truthyStrings`. -/
def parseBoolean (cell : Option Str) : Bool :=
  match cell with
  | none => false
  | some s => decide (pyLower (pyStrip s) ∈ truthyStrings)

/-- `CSVParser._safe_string`: NaN becomes the empty string, everything else
is stripped. -/
def safeString (cell : Option Str) : Str :=
  match cell with
  | none => []
  | some s => pyStrip s

/-! ### The Transaction record -/

/-- The `"nan"` sentinel checked by `Transaction.__post_init__`. -/
def nanStr : Str := "nan".data

/-- Default description `"(不明)"`. -/
def unknownStr : Str := "(不明)".data

/-- Default category `"未分類"`. -/
def uncategorizedStr : Str := "未分類".data

/-- One transaction record, fields in source order
(`Transaction` dataclass of `csv_parser.py`). -/
structure Transaction where
  is_calculated : Bool
  date : Date
  description : Str
  amount : Int
  institution : Str
  major_category : Str
  minor_category : Str
  memo : Str
  is_transfer : Bool
  transaction_id : Str
deriving DecidableEq, Repr

/-- Construction of a `Transaction` including `__post_init__`: an empty or
`"nan"` description becomes `"(不明)"`, empty or `"nan"` categories become
`"未分類"`. -/
def mkTransaction (is_calculated : Bool) (date : Date) (description : Str)
    (amount : Int) (institution major minor memo : Str)
    (is_transfer : Bool) (tid : Str) : Transaction :=
  ⟨is_calculated, date,
    if description = [] ∨ description = nanStr then unknownStr else description,
    amount, institution,
    if major = [] ∨ major = nanStr then uncategorizedStr else major,
    if minor = [] ∨ minor = nanStr then uncategorizedStr else minor,
    memo, is_transfer, tid⟩

/-! ### Row-level parsing -/

/-- Classified row-level failures.  The Python code raises `ValueError` with
a message; the embedding keeps the classification instead of the text. -/
inductive RowErr where
  | missingDate
  | badDate
  | badAmount
deriving DecidableEq, Repr

/-- The ten required column labels, in `COLUMN_MAPPING` insertion order. -/
def requiredCols : List Str :=
  ["計算対象".data, "日付".data, "内容".data, "金額（円）".data,
   "保有金融機関".data, "大項目".data, "中項目".data, "メモ".data,
   "振替".data, "ID".data]

/-- `row.get(label, default)` on a pandas row: if the label is a column, the
cell at its position (NaN cells are `none`; a short row reads as NaN), else
the supplied default.  Note that when the column exists an empty cell
returns NaN, not the default. -/
def rowGet (cols : List Str) (cells : List (Option Str)) (label : Str)
    (dflt : Option Str) : Option Str :=
  match cols.findIdx? (fun c => decide (c = label)) with
  | some i => (cells.get? i).join
  | none => dflt

/-- `CSVParser._parse_row` on one row (`cells`, aligned with `cols`):
date is required and must parse; amount must parse; booleans and strings
are converted leniently.  `rowIdx` is the pandas index of the row, used by
the source only inside the synthetic `unknown_{row_idx}` identifier default
and in error messages. -/
def parseRow (cols : List Str) (rowIdx : Nat) (cells : List (Option Str)) :
    Except RowErr Transaction :=
  let get := fun (label : Str) (dflt : Option Str) => rowGet cols cells label dflt
  match get "日付".data (some []) with
  | none => .error .missingDate
  | some dateStr =>
    if (pyStrip dateStr).isEmpty then .error .missingDate
    else
      match parseDateExplicit dateStr with
      | none => .error .badDate
      | some date =>
        match parseAmount (get "金額（円）".data (some ['0'])) with
        | none => .error .badAmount
        | some amount =>
          let is_calculated := parseBoolean (get "計算対象".data (some ['0']))
          let is_transfer := parseBoolean (get "振替".data (some ['0']))
          let description := safeString (get "内容".data (some []))
          let institution := safeString (get "保有金融機関".data (some []))
          let major_category := safeString (get "大項目".data (some []))
          let minor_category := safeString (get "中項目".data (some []))
          let memo := safeString (get "メモ".data (some []))
          let transaction_id :=
            safeString (get "ID".data (some ("unknown_".data ++ (Nat.repr rowIdx).data)))
          .ok (mkTransaction is_calculated date description amount institution
            major_category minor_category memo is_transfer transaction_id)

/-! ### File-level and batch-level errors -/

/-- Classified `CSVParseError`s.  The Python code raises with a formatted
message; the embedding keeps the data the message is built from.  A
`missingColumns` error carries the missing labels and the best-effort
suggestion pairs (missing label, present label with the same two-character
prefix). -/
inductive CsvErr where
  | emptyFile
  | tooLarge
  | undecodable
  | noData
  | noRows
  | missingColumns (missing : List Str) (suggestions : List (Str × Str))
  | allRowsFailed (errors : List (Nat × RowErr))
deriving DecidableEq, Repr

/-! ### Encoding detection

`_read_csv_with_encoding_detection` tries `utf-8`, `utf-8-sig`,
`shift_jis`, `cp932` in order and returns the first decode that succeeds.
`utf8Decode` is the strict UTF-8 codec (rejecting overlong forms and
surrogates, like Python's); `utf-8-sig` is the same codec after dropping a
leading byte-order mark.  The two Japanese legacy codecs are external
library tables; they are reached only when the bytes are not valid UTF-8,
which never happens for the inputs of the theorems below, so they are
modelled as failing. -/

/-- UTF-8 continuation byte test. -/
def contB (b : Nat) : Bool := 0x80 ≤ b && b ≤ 0xBF

/-- Strict UTF-8 decoding of a byte list into characters. -/
def utf8Decode : List Nat → Option (List Char)
  | [] => some []
  | b1 :: t1 =>
    if b1 ≤ 0x7F then (utf8Decode t1).map (fun cs => Char.ofNat b1 :: cs)
    else
      match t1 with
      | [] => none
      | b2 :: t2 =>
        if 0xC2 ≤ b1 && b1 ≤ 0xDF then
          if contB b2 then
            (utf8Decode t2).map (fun cs =>
              Char.ofNat ((b1 - 0xC0) * 64 + (b2 - 0x80)) :: cs)
          else none
        else
          match t2 with
          | [] => none
          | b3 :: t3 =>
            if 0xE0 ≤ b1 && b1 ≤ 0xEF then
              if ((b1 = 0xE0 && 0xA0 ≤ b2 && b2 ≤ 0xBF) ||
                  ((0xE1 ≤ b1 && b1 ≤ 0xEC) || b1 = 0xEE || b1 = 0xEF) && contB b2 ||
                  (b1 = 0xED && 0x80 ≤ b2 && b2 ≤ 0x9F)) && contB b3 then
                (utf8Decode t3).map (fun cs =>
                  Char.ofNat ((b1 - 0xE0) * 4096 + (b2 - 0x80) * 64 + (b3 - 0x80)) :: cs)
              else none
            else
              match t3 with
              | [] => none
              | b4 :: t4 =>
                if 0xF0 ≤ b1 && b1 ≤ 0xF4 then
                  if ((b1 = 0xF0 && 0x90 ≤ b2 && b2 ≤ 0xBF) ||
                      (0xF1 ≤ b1 && b1 ≤ 0xF3) && contB b2 ||
                      (b1 = 0xF4 && 0x80 ≤ b2 && b2 ≤ 0x8F)) && contB b3 && contB b4 then
                    (utf8Decode t4).map (fun cs =>
                      Char.ofNat ((b1 - 0xF0) * 262144 + (b2 - 0x80) * 4096 +
                        (b3 - 0x80) * 64 + (b4 - 0x80)) :: cs)
                  else none
                else none

/-- The UTF-8 byte-order mark. -/
def bomBytes : List Nat := [0xEF, 0xBB, 0xBF]

/-- Python's `utf-8-sig` codec: drop a leading byte-order mark, then UTF-8. -/
def utf8SigDecode (b : List Nat) : Option (List Char) :=
  if b.take 3 = bomBytes then utf8Decode (b.drop 3) else utf8Decode b

/-- The Shift-JIS / CP932 attempts of the encoding loop.  These external
codec tables are approximated as failing: every theorem in this file feeds
the loop valid UTF-8, which the first attempt already accepts, so this
branch is never reached in any proof. -/
def legacyJpDecode (_ : List Nat) : Option (List Char) := none

/-- The encoding-detection loop of `_read_csv_with_encoding_detection`:
first success among `utf-8`, `utf-8-sig`, `shift_jis`, `cp932` wins. -/
def detectAndDecode (b : List Nat) : Option (List Char) :=
  (utf8Decode b) <|> (utf8SigDecode b) <|> (legacyJpDecode b)

/-! ### CSV text to raw table -/

/-- Split a character list at every occurrence of `sep`. -/
def splitOnChar (sep : Char) : Str → List Str
  | [] => [[]]
  | c :: t =>
    let r := splitOnChar sep t
    if c = sep then [] :: r
    else
      match r with
      | h :: t2 => (c :: h) :: t2
      | [] => [[c]]

/-- The `na_values` of the `read_csv` call (with `keep_default_na` the
empty string is also NaN): a cell with one of these exact contents reads
as NaN. -/
def naValues : List Str := [[], "NA".data, "N/A".data, "null".data, "NULL".data]

/-- Convert one raw field into a cell: `na_values` members become NaN. -/
def toCell (s : Str) : Option Str :=
  if decide (s ∈ naValues) then none else some s

/-- A decoded table: the header labels and the data rows (cell lists,
aligned positionally with the header). -/
structure RawTable where
  cols : List Str
  rows : List (List (Option Str))
deriving DecidableEq, Repr

/-- `pandas.read_csv` on the decoded text, for the plain comma-separated
files this program consumes (no quoting, `dtype=str`): blank lines are
skipped (`skip_blank_lines` default), the first remaining line is the
header, every other line is a data row with `na_values` applied per cell.
A file with no lines at all raises `EmptyDataError`, which `parse()` turns
into a `CSVParseError` (`noData`). -/
def readTable (text : Str) : Except CsvErr RawTable :=
  let lines := (splitOnChar '\n' text).filter (fun l => !l.isEmpty)
  match lines with
  | [] => .error .noData
  | header :: dataLines =>
    .ok ⟨splitOnChar ',' header,
      dataLines.map (fun l => (splitOnChar ',' l).map toCell)⟩

/-! ### Column validation -/

/-- The labels of `requiredCols` absent from the actual columns
(`expected_cols - actual_cols`). -/
def missingOf (cols : List Str) : List Str :=
  requiredCols.filter (fun c => decide (c ∉ cols))

/-- The best-effort suggestions of `_validate_columns`: for each missing
label, every present column whose first two characters agree with the
missing label's first two characters. -/
def suggestionsFor (missing cols : List Str) : List (Str × Str) :=
  (missing.map (fun m =>
    (cols.filter (fun a => decide (m.take 2 = a.take 2))).map (fun a => (m, a)))).flatten

/-- `CSVParser._validate_columns`: an empty table (zero data rows) is
rejected first with `noRows`; then any missing required label produces a
`missingColumns` error carrying the missing labels and the prefix-match
suggestions.  Extra columns only produce a log warning (not modelled). -/
def validateColumns (tbl : RawTable) : Except CsvErr Unit :=
  if tbl.rows = [] then .error .noRows
  else
    let missing := missingOf tbl.cols
    if missing = [] then .ok ()
    else .error (.missingColumns missing (suggestionsFor missing tbl.cols))

/-! ### Preprocessing -/

/-- `_preprocess_dataframe` on the data rows: drop rows whose cells are all
NaN (`dropna(how="all")`), keeping each surviving row's original pandas
index, then strip every remaining string cell.  (Column labels are stripped
separately.) -/
def preprocessRows (rows : List (List (Option Str))) :
    List (Nat × List (Option Str)) :=
  (rows.enum.filter (fun p => !(p.2.all (fun c => c.isNone)))).map
    (fun p => (p.1, p.2.map (Option.map pyStrip)))

/-! ### Batch conversion -/

/-- The row loop of `_convert_to_transactions`: each row either yields a
transaction (appended in order) or a recorded error (row index and reason),
and the loop always continues with the next row. -/
def convertLoop (cols : List Str) :
    List (Nat × List (Option Str)) → List Transaction × List (Nat × RowErr)
  | [] => ([], [])
  | (idx, cells) :: rest =>
    let acc := convertLoop cols rest
    match parseRow cols idx cells with
    | .ok t => (t :: acc.1, acc.2)
    | .error e => (acc.1, (idx, e) :: acc.2)

/-- `CSVParser._convert_to_transactions`: run the row loop; if no
transaction was parsed and at least one row-level error occurred, the whole
batch fails (`allRowsFailed`), otherwise the transactions and the recorded
errors are returned. -/
def convertToTransactions (cols : List Str)
    (rows : List (Nat × List (Option Str))) :
    Except CsvErr (List Transaction × List (Nat × RowErr)) :=
  let (ts, es) := convertLoop cols rows
  if ts = [] ∧ es ≠ [] then .error (.allRowsFailed es)
  else .ok (ts, es)

/-! ### The parse pipeline -/

/-- `CSVParser.parse()` from a decoded table onward: validate the raw
columns, preprocess (strip labels, drop blank rows, strip cells), convert
row by row. -/
def parseTable (tbl : RawTable) :
    Except CsvErr (List Transaction × List (Nat × RowErr)) :=
  match validateColumns tbl with
  | .error e => .error e
  | .ok _ => convertToTransactions (tbl.cols.map pyStrip) (preprocessRows tbl.rows)

/-- The whole ingestion from raw file bytes: the protective empty/size
checks of `__init__`, encoding detection, CSV reading, then `parseTable`. -/
def parseBytes (b : List Nat) :
    Except CsvErr (List Transaction × List (Nat × RowErr)) :=
  if b = [] then .error .emptyFile
  else if decide (10485760 < b.length) then .error .tooLarge
  else
    match detectAndDecode b with
    | none => .error .undecodable
    | some text =>
      match readTable text with
      | .error e => .error e
      | .ok tbl => parseTable tbl

/-! ### Aggregation (`CSVParser.get_summary`) -/

/-- The countable set of `get_summary`: transactions that are not transfers
and are marked as calculated. -/
def countableOf (ts : List Transaction) : List Transaction :=
  ts.filter (fun t => !t.is_transfer && t.is_calculated)

/-- Insert-or-add on an insertion-ordered association list, the behaviour
of `dict.get(k, 0) + v` followed by `dict[k] = ...` on a Python dict
(updating an existing key keeps its position, a new key is appended). -/
def insertAdd : List (Str × Int) → Str → Int → List (Str × Int)
  | [], k, v => [(k, v)]
  | (k2, v2) :: rest, k, v =>
    if k2 = k then (k2, v2 + v) :: rest
    else (k2, v2) :: insertAdd rest k v

/-- One step of the expense-by-category loop: negative-amount transactions
add their absolute amount under their major category (an empty category
falls back to `"未分類"`, dead after `__post_init__` but present in the
source). -/
def addExpense (acc : List (Str × Int)) (t : Transaction) : List (Str × Int) :=
  if t.amount < 0 then
    insertAdd acc (if t.major_category = [] then uncategorizedStr else t.major_category)
      |t.amount|
  else acc

/-- Stable descending insertion by value: the element keeps its position
relative to earlier elements with the same value. -/
def insertDesc (x : Str × Int) : List (Str × Int) → List (Str × Int)
  | [] => [x]
  | y :: t => if x.2 < y.2 then y :: insertDesc x t else x :: y :: t

/-- Python's `sorted(items, key=value, reverse=True)` is a stable descending
sort; the stable insertion sort below computes the same list. -/
def sortDesc (l : List (Str × Int)) : List (Str × Int) :=
  l.foldr insertDesc []

/-- Lexicographic strict order on dates, the order of `datetime` values. -/
def dateLT (a b : Date) : Bool :=
  a.year < b.year || (a.year = b.year &&
    (a.month < b.month || (a.month = b.month && a.day < b.day)))

/-- Python `min` over a date list with initial candidate `a` (ties keep the
earlier element). -/
def listMinD (a : Date) : List Date → Date
  | [] => a
  | d :: t => listMinD (if dateLT d a then d else a) t

/-- Python `max` over a date list with initial candidate `a`. -/
def listMaxD (a : Date) : List Date → Date
  | [] => a
  | d :: t => listMaxD (if dateLT a d then d else a) t

/-- Insertion-ordered deduplication, modelling the distinct institutions
(`list(set(...))`; the Python set's iteration order is unspecified, the
embedding fixes first-seen order). -/
def dedupKeepFirst : List Str → List Str
  | [] => []
  | s :: t => s :: (dedupKeepFirst t).filter (fun x => decide (x ≠ s))

/-- The summary mapping returned by `get_summary`, fields in source order. -/
structure Summary where
  total_transactions : Nat
  date_range : Option (Date × Date)
  total_income : Int
  total_expense : Int
  net_cashflow : Int
  expense_by_category : List (Str × Int)
  institutions : List Str
  parse_errors : Nat
deriving DecidableEq, Repr

/-- Sum of positive amounts over the countable set. -/
def summaryIncome (ts : List Transaction) : Int :=
  (((countableOf ts).filter (fun t => decide (0 < t.amount))).map
    (fun t => t.amount)).sum

/-- Signed sum of negative amounts over the countable set. -/
def summaryExpenseSum (ts : List Transaction) : Int :=
  (((countableOf ts).filter (fun t => decide (t.amount < 0))).map
    (fun t => t.amount)).sum

/-- The category breakdown: the expense loop over the countable set, then
the stable descending sort by summed amount. -/
def summaryEbc (ts : List Transaction) : List (Str × Int) :=
  sortDesc ((countableOf ts).foldl addExpense [])

/-- `CSVParser.get_summary` as a pure function of the parsed transactions
and the recorded error count: an empty list yields the all-zero summary
with a null date range; otherwise income, expense (absolute value),
net cashflow, sorted category breakdown, date range over all transactions
and distinct non-empty institutions are derived. -/
def getSummary (transactions : List Transaction) (nErr : Nat) : Summary :=
  match transactions with
  | [] => ⟨0, none, 0, 0, 0, [], [], nErr⟩
  | t0 :: rest =>
    let income := summaryIncome transactions
    let expense := summaryExpenseSum transactions
    let dates := rest.map (fun t => t.date)
    ⟨transactions.length,
      some (listMinD t0.date dates, listMaxD t0.date dates),
      income, |expense|, income + expense,
      summaryEbc transactions,
      dedupKeepFirst (transactions.filterMap
        (fun t => if t.institution = [] then none else some t.institution)),
      nErr⟩

/-- Sum of the values of an association list. -/
def sumValues (l : List (Str × Int)) : Int := (l.map (fun p => p.2)).sum

/-! ### Claim-side byte encoders and concrete inputs -/

/-- Standard UTF-8 encoding of one character (claim side, used to build
concrete input files). -/
def utf8EncodeChar (c : Char) : List Nat :=
  let n := c.toNat
  if n ≤ 0x7F then [n]
  else if n ≤ 0x7FF then [0xC0 + n / 64, 0x80 + n % 64]
  else if n ≤ 0xFFFF then [0xE0 + n / 4096, 0x80 + n / 64 % 64, 0x80 + n % 64]
  else [0xF0 + n / 262144, 0x80 + n / 4096 % 64, 0x80 + n / 64 % 64, 0x80 + n % 64]

/-- Standard UTF-8 encoding of a string. -/
def utf8Encode (s : Str) : List Nat := (s.map utf8EncodeChar).flatten

/-- The exact MoneyForward ME header line. -/
def headerLine : Str :=
  "計算対象,日付,内容,金額（円）,保有金融機関,大項目,中項目,メモ,振替,ID".data

/-- A well-formed single data row (comma-separated, ten cells). -/
def demoDataLine : Str := "1,2024/01/15,ランチ,-1000,銀行,食費,外食,,,id01".data

/-- Bytes of a header-only export: the ten required headers, zero data
rows, encoded as UTF-8. -/
def headersOnlyBytes : List Nat := utf8Encode headerLine

/-- Bytes of a well-formed UTF-8 export carrying a leading byte-order mark:
the ten required headers and one valid data row. -/
def bomFileBytes : List Nat :=
  bomBytes ++ utf8Encode (headerLine ++ '\n' :: demoDataLine)

/-! ## Helper lemmas: digits and stripping -/

theorem isDig_dchar : ∀ n < 10, isDig (dchar n) = true := by decide

theorem dval_dchar : ∀ n < 10, dval (dchar n) = n := by decide

theorem isPySpace_dchar : ∀ n < 10, isPySpace (dchar n) = false := by decide

theorem isPySpace_of_isDig {c : Char} (h : isDig c = true) : isPySpace c = false := by
  simp only [isDig, Bool.and_eq_true, decide_eq_true_eq] at h
  simp only [isPySpace, Bool.or_eq_false_iff, Bool.and_eq_false_iff,
    decide_eq_false_iff_not]
  omega

theorem dropWhile_eq_self_of_head {p : Char → Bool} {l : Str}
    (h : ∀ c ∈ l, p c = false) : l.dropWhile p = l := by
  cases l with
  | nil => rfl
  | cons a t => simp [List.dropWhile, h a (List.mem_cons_self a t)]

theorem pyStrip_eq_self {l : Str} (h : ∀ c ∈ l, isPySpace c = false) :
    pyStrip l = l := by
  unfold pyStrip
  rw [dropWhile_eq_self_of_head h, dropWhile_eq_self_of_head, List.reverse_reverse]
  intro c hc
  exact h c (List.mem_reverse.mp hc)

/-! ## Helper lemmas: the strptime matchers on rendered components -/

theorem matchY_pad4 {y : Nat} (h : y ≤ 9999) (r : Str) :
    matchY (pad4 y ++ r) = some (y, r) := by
  have h1 : y / 1000 < 10 := by omega
  have h2 : y / 100 % 10 < 10 := by omega
  have h3 : y / 10 % 10 < 10 := by omega
  have h4 : y % 10 < 10 := by omega
  simp only [pad4, List.cons_append, List.nil_append, matchY,
    isDig_dchar _ h1, isDig_dchar _ h2, isDig_dchar _ h3, isDig_dchar _ h4,
    dval_dchar _ h1, dval_dchar _ h2, dval_dchar _ h3, dval_dchar _ h4,
    Bool.and_self, if_pos]
  simp only [Option.some.injEq, Prod.mk.injEq, and_true]
  omega

theorem matchM_pad2 {m : Nat} (h1 : 1 ≤ m) (h2 : m ≤ 12) (r : Str) :
    matchM (pad2 m ++ r) = some (m, r) := by
  interval_cases m <;> rfl

theorem matchD_pad2 {d : Nat} (h1 : 1 ≤ d) (h2 : d ≤ 31) (r : Str) :
    matchD (pad2 d ++ r) = some (d, r) := by
  interval_cases d <;> rfl

theorem matchY_pad2 {n : Nat} (c : Char) (hc : isDig c = false) (r : Str) :
    matchY (pad2 n ++ c :: r) = none := by
  cases r with
  | nil => rfl
  | cons c4 r2 => simp [pad2, matchY, hc]

/-! ## Helper lemmas: calendar bounds -/

theorem daysInMonth_le_31 (y m : Nat) : daysInMonth y m ≤ 31 := by
  unfold daysInMonth
  split_ifs <;> omega

theorem le_daysInMonth (y m : Nat) : 28 ≤ daysInMonth y m := by
  unfold daysInMonth
  split_ifs <;> omega

theorem validDate_bounds {v : Date} (h : validDate v = true) :
    1 ≤ v.year ∧ v.year ≤ 9999 ∧ 1 ≤ v.month ∧ v.month ≤ 12 ∧
      1 ≤ v.day ∧ v.day ≤ daysInMonth v.year v.month := by
  simp only [validDate, Bool.and_eq_true, decide_eq_true_eq] at h
  exact ⟨h.1.1.1.1.1, h.1.1.1.1.2, h.1.1.1.2, h.1.1.2, h.1.2, h.2⟩

theorem validDate_swap {v : Date} (hv : validDate v = true) (hd : v.day ≤ 12) :
    validDate ⟨v.year, v.day, v.month⟩ = true := by
  obtain ⟨h1, h2, h3, h4, h5, h6⟩ := validDate_bounds hv
  have h7 := le_daysInMonth v.year v.day
  simp only [validDate, Bool.and_eq_true, decide_eq_true_eq]
  refine ⟨⟨⟨⟨⟨h1, h2⟩, h5⟩, hd⟩, h3⟩, by omega⟩

/-! ## Helper lemmas: each strptime format on rendered dates -/

theorem tryYmd_render {v : Date} (hv : validDate v = true)
    (sep1 sep2 : Char) (tail : Str) :
    tryYmd sep1 sep2 tail
      (pad4 v.year ++ sep1 :: (pad2 v.month ++ sep2 :: (pad2 v.day ++ tail))) =
      some v := by
  obtain ⟨h1, h2, h3, h4, h5, h6⟩ := validDate_bounds hv
  have h31 : v.day ≤ 31 := le_trans h6 (daysInMonth_le_31 _ _)
  simp [tryYmd, matchY_pad4 h2, matchLit, matchM_pad2 h3 h4, matchD_pad2 h5 h31, hv]

theorem tryYmd_pad2_head (sep1 sep2 : Char) (tail : Str) {a : Nat} {c : Char}
    (hc : isDig c = false) (rest : Str) :
    tryYmd sep1 sep2 tail (pad2 a ++ c :: rest) = none := by
  simp [tryYmd, matchY_pad2 _ hc]

theorem tryYmd_wrong_sep {y : Nat} (h : y ≤ 9999) (sep1 sep2 : Char)
    (tail : Str) {c : Char} (hc : c ≠ sep1) (rest : Str) :
    tryYmd sep1 sep2 tail (pad4 y ++ c :: rest) = none := by
  simp [tryYmd, matchY_pad4 h, matchLit, hc]

theorem tryMdY_render {v : Date} (hv : validDate v = true) :
    tryMdY (renderMdY v) = some v := by
  obtain ⟨h1, h2, h3, h4, h5, h6⟩ := validDate_bounds hv
  have h31 : v.day ≤ 31 := le_trans h6 (daysInMonth_le_31 _ _)
  have hy : matchY (pad4 v.year) = some (v.year, []) := by
    have := matchY_pad4 h2 ([] : Str)
    simpa using this
  simp [tryMdY, renderMdY, matchM_pad2 h3 h4, matchLit, matchD_pad2 h5 h31, hy, hv]

theorem tryMdY_renderDmY_low {v : Date} (hv : validDate v = true)
    (hd : v.day ≤ 12) :
    tryMdY (renderDmY v) = some ⟨v.year, v.day, v.month⟩ := by
  obtain ⟨h1, h2, h3, h4, h5, h6⟩ := validDate_bounds hv
  have hm31 : v.month ≤ 31 := by omega
  have hy : matchY (pad4 v.year) = some (v.year, []) := by
    have := matchY_pad4 h2 ([] : Str)
    simpa using this
  simp [tryMdY, renderDmY, matchM_pad2 h5 hd, matchLit, matchD_pad2 h3 hm31, hy,
    validDate_swap hv hd]

theorem tryMdY_renderDmY_high {v : Date} (hv : validDate v = true)
    (hd : 13 ≤ v.day) : tryMdY (renderDmY v) = none := by
  obtain ⟨h1, h2, h3, h4, h5, h6⟩ := validDate_bounds hv
  have h31 : v.day ≤ 31 := le_trans h6 (daysInMonth_le_31 _ _)
  rcases v with ⟨y, m, d⟩
  simp only at hd h31
  unfold renderDmY
  simp only
  interval_cases d <;> rfl

theorem tryDmY_render {v : Date} (hv : validDate v = true) :
    tryDmY (renderDmY v) = some v := by
  obtain ⟨h1, h2, h3, h4, h5, h6⟩ := validDate_bounds hv
  have h31 : v.day ≤ 31 := le_trans h6 (daysInMonth_le_31 _ _)
  have hy : matchY (pad4 v.year) = some (v.year, []) := by
    have := matchY_pad4 h2 ([] : Str)
    simpa using this
  simp [tryDmY, renderDmY, matchD_pad2 h5 h31, matchLit, matchM_pad2 h3 h4, hy, hv]

/-! ## Helper lemmas: rendered dates contain no whitespace -/

theorem pad2_no_space {n : Nat} (h : n ≤ 99) :
    ∀ c ∈ pad2 n, isPySpace c = false := by
  intro c hc
  simp only [pad2, List.mem_cons, List.not_mem_nil, or_false] at hc
  rcases hc with h1 | h1 <;> subst h1 <;> exact isPySpace_dchar _ (by omega)

theorem pad4_no_space {n : Nat} (h : n ≤ 9999) :
    ∀ c ∈ pad4 n, isPySpace c = false := by
  intro c hc
  simp only [pad4, List.mem_cons, List.not_mem_nil, or_false] at hc
  rcases hc with h1 | h1 | h1 | h1 <;> subst h1 <;> exact isPySpace_dchar _ (by omega)

theorem strip_render_sep {y m d : Nat} (hy : y ≤ 9999) (hm : m ≤ 99)
    (hd : d ≤ 99) (s1 s2 : Char) (hs1 : isPySpace s1 = false)
    (hs2 : isPySpace s2 = false) (tail : Str)
    (htail : ∀ c ∈ tail, isPySpace c = false) :
    pyStrip (pad4 y ++ s1 :: (pad2 m ++ s2 :: (pad2 d ++ tail))) =
      pad4 y ++ s1 :: (pad2 m ++ s2 :: (pad2 d ++ tail)) := by
  apply pyStrip_eq_self
  intro c hc
  simp only [List.mem_append, List.mem_cons] at hc
  rcases hc with h1 | h1 | h1 | h1 | h1 | h1
  · exact pad4_no_space hy c h1
  · subst h1; exact hs1
  · exact pad2_no_space hm c h1
  · subst h1; exact hs2
  · exact pad2_no_space hd c h1
  · exact htail c h1

theorem strip_render_md {y m d : Nat} (hy : y ≤ 9999) (hm : m ≤ 99)
    (hd : d ≤ 99) :
    pyStrip (pad2 m ++ '/' :: (pad2 d ++ '/' :: pad4 y)) =
      pad2 m ++ '/' :: (pad2 d ++ '/' :: pad4 y) := by
  apply pyStrip_eq_self
  intro c hc
  simp only [List.mem_append, List.mem_cons] at hc
  rcases hc with h1 | h1 | h1 | h1 | h1
  · exact pad2_no_space hm c h1
  · subst h1; rfl
  · exact pad2_no_space hd c h1
  · subst h1; rfl
  · exact pad4_no_space hy c h1

/-! ## Helper lemmas: the five-format cascade on rendered dates -/

theorem parseDateExplicit_eq {s : Str} (h : pyStrip s = s) :
    parseDateExplicit s =
      ((tryYmd '/' '/' [] s) <|> (tryYmd '-' '-' [] s) <|>
        (tryYmd '年' '月' ['日'] s) <|> (tryMdY s) <|> (tryDmY s)) := by
  unfold parseDateExplicit
  rw [h]

theorem parseDateExplicit_renderYmdSlash {v : Date} (hv : validDate v = true) :
    parseDateExplicit (renderYmdSlash v) = some v := by
  obtain ⟨h1, h2, h3, h4, h5, h6⟩ := validDate_bounds hv
  have hm99 : v.month ≤ 99 := by omega
  have hd99 : v.day ≤ 99 := by
    have := daysInMonth_le_31 v.year v.month
    omega
  have hshape : renderYmdSlash v =
      pad4 v.year ++ '/' :: (pad2 v.month ++ '/' :: (pad2 v.day ++ [])) := by
    simp [renderYmdSlash]
  have hstrip := @strip_render_sep v.year v.month v.day h2 hm99 hd99 '/' '/'
    rfl rfl [] (by intro c hc; simp at hc)
  rw [hshape, parseDateExplicit_eq hstrip, tryYmd_render hv '/' '/' []]
  rfl

theorem parseDateExplicit_renderYmdDash {v : Date} (hv : validDate v = true) :
    parseDateExplicit (renderYmdDash v) = some v := by
  obtain ⟨h1, h2, h3, h4, h5, h6⟩ := validDate_bounds hv
  have hm99 : v.month ≤ 99 := by omega
  have hd99 : v.day ≤ 99 := by
    have := daysInMonth_le_31 v.year v.month
    omega
  have hshape : renderYmdDash v =
      pad4 v.year ++ '-' :: (pad2 v.month ++ '-' :: (pad2 v.day ++ [])) := by
    simp [renderYmdDash]
  have hstrip := @strip_render_sep v.year v.month v.day h2 hm99 hd99 '-' '-'
    rfl rfl [] (by intro c hc; simp at hc)
  rw [hshape, parseDateExplicit_eq hstrip,
    @tryYmd_wrong_sep v.year h2 '/' '/' [] '-' (by decide) _,
    tryYmd_render hv '-' '-' []]
  rfl

theorem parseDateExplicit_renderJp {v : Date} (hv : validDate v = true) :
    parseDateExplicit (renderJp v) = some v := by
  obtain ⟨h1, h2, h3, h4, h5, h6⟩ := validDate_bounds hv
  have hm99 : v.month ≤ 99 := by omega
  have hd99 : v.day ≤ 99 := by
    have := daysInMonth_le_31 v.year v.month
    omega
  have hshape : renderJp v =
      pad4 v.year ++ '年' :: (pad2 v.month ++ '月' :: (pad2 v.day ++ ['日'])) := by
    simp [renderJp]
  have hstrip := @strip_render_sep v.year v.month v.day h2 hm99 hd99 '年' '月'
    rfl rfl ['日'] (by intro c hc; simp at hc; subst hc; rfl)
  rw [hshape, parseDateExplicit_eq hstrip,
    @tryYmd_wrong_sep v.year h2 '/' '/' [] '年' (by decide) _,
    @tryYmd_wrong_sep v.year h2 '-' '-' [] '年' (by decide) _,
    tryYmd_render hv '年' '月' ['日']]
  rfl

theorem parseDateExplicit_renderMdY {v : Date} (hv : validDate v = true) :
    parseDateExplicit (renderMdY v) = some v := by
  obtain ⟨h1, h2, h3, h4, h5, h6⟩ := validDate_bounds hv
  have hm99 : v.month ≤ 99 := by omega
  have hd99 : v.day ≤ 99 := by
    have := daysInMonth_le_31 v.year v.month
    omega
  have hshape : renderMdY v =
      pad2 v.month ++ '/' :: (pad2 v.day ++ '/' :: pad4 v.year) := by
    simp [renderMdY]
  have hstrip := @strip_render_md v.year v.month v.day h2 hm99 hd99
  have hfmt4 := tryMdY_render hv
  rw [hshape] at hfmt4
  rw [hshape, parseDateExplicit_eq hstrip,
    @tryYmd_pad2_head '/' '/' [] v.month '/' (by decide) _,
    @tryYmd_pad2_head '-' '-' [] v.month '/' (by decide) _,
    @tryYmd_pad2_head '年' '月' ['日'] v.month '/' (by decide) _,
    hfmt4]
  rfl

theorem parseDateExplicit_renderDmY {v : Date} (hv : validDate v = true) :
    parseDateExplicit (renderDmY v) =
      (if v.day ≤ 12 then some ⟨v.year, v.day, v.month⟩ else some v) := by
  obtain ⟨h1, h2, h3, h4, h5, h6⟩ := validDate_bounds hv
  have hm99 : v.month ≤ 99 := by omega
  have hd99 : v.day ≤ 99 := by
    have := daysInMonth_le_31 v.year v.month
    omega
  have hshape : renderDmY v =
      pad2 v.day ++ '/' :: (pad2 v.month ++ '/' :: pad4 v.year) := by
    simp [renderDmY]
  have hstrip := @strip_render_md v.year v.day v.month h2 hd99 hm99
  by_cases hd : v.day ≤ 12
  · have hfmt4 := tryMdY_renderDmY_low hv hd
    rw [hshape] at hfmt4
    rw [hshape, parseDateExplicit_eq hstrip,
      @tryYmd_pad2_head '/' '/' [] v.day '/' (by decide) _,
      @tryYmd_pad2_head '-' '-' [] v.day '/' (by decide) _,
      @tryYmd_pad2_head '年' '月' ['日'] v.day '/' (by decide) _,
      hfmt4, if_pos hd]
    rfl
  · have hfmt4 := tryMdY_renderDmY_high hv (by omega)
    have hfmt5 := tryDmY_render hv
    rw [hshape] at hfmt4 hfmt5
    rw [hshape, parseDateExplicit_eq hstrip,
      @tryYmd_pad2_head '/' '/' [] v.day '/' (by decide) _,
      @tryYmd_pad2_head '-' '-' [] v.day '/' (by decide) _,
      @tryYmd_pad2_head '年' '月' ['日'] v.day '/' (by decide) _,
      hfmt4, hfmt5, if_neg hd]
    rfl

/-! ## Claim C4 -/

/-- C4 (corrected): for every valid calendar date (as constructible by
`datetime`, hence with a four-digit year), rendering in the first four
accepted formats (`YYYY/MM/DD`, `YYYY-MM-DD`, `YYYY年MM月DD日`,
`MM/DD/YYYY`) and parsing with `CSVParser._parse_date`'s explicit-format
cascade round-trips the same calendar date; for the fifth format
(`DD/MM/YYYY`) the round-trip holds exactly when the day exceeds 12 or
equals the month, because the `%m/%d/%Y` format is tried first and
captures every rendered `DD/MM/YYYY` string whose day could be a month. -/
theorem c4_roundtrip_by_format : ∀ v : Date, validDate v = true →
    parseDateExplicit (renderYmdSlash v) = some v ∧
    parseDateExplicit (renderYmdDash v) = some v ∧
    parseDateExplicit (renderJp v) = some v ∧
    parseDateExplicit (renderMdY v) = some v ∧
    (parseDateExplicit (renderDmY v) = some v ↔ 12 < v.day ∨ v.day = v.month) := by
  intro v hv
  refine ⟨parseDateExplicit_renderYmdSlash hv, parseDateExplicit_renderYmdDash hv,
    parseDateExplicit_renderJp hv, parseDateExplicit_renderMdY hv, ?_⟩
  rw [parseDateExplicit_renderDmY hv]
  obtain ⟨y, m, d⟩ := v
  simp only at *
  split_ifs with hd2
  · simp only [Option.some.injEq, Date.mk.injEq, true_and]
    omega
  · simp only [Option.some.injEq, Date.mk.injEq, true_and, and_self, true_iff]
    omega

/-- C4 counterexample: the date 2024-03-04 rendered in the `DD/MM/YYYY`
format (`"04/03/2024"`) parses to 2024-04-03 — the `%m/%d/%Y` format is
tried first — so the claimed round-trip fails for the fifth format. -/
theorem c4_counterexample :
    parseDateExplicit (renderDmY ⟨2024, 3, 4⟩) = some ⟨2024, 4, 3⟩ ∧
    parseDateExplicit (renderDmY ⟨2024, 3, 4⟩) ≠ some ⟨2024, 3, 4⟩ := by
  decide

/-- C4 witness: the amended round-trip statement instantiated at the
concrete date 2024-01-15. -/
theorem c4_witness :
    parseDateExplicit (renderYmdSlash ⟨2024, 1, 15⟩) = some ⟨2024, 1, 15⟩ ∧
    parseDateExplicit (renderYmdDash ⟨2024, 1, 15⟩) = some ⟨2024, 1, 15⟩ ∧
    parseDateExplicit (renderJp ⟨2024, 1, 15⟩) = some ⟨2024, 1, 15⟩ ∧
    parseDateExplicit (renderMdY ⟨2024, 1, 15⟩) = some ⟨2024, 1, 15⟩ ∧
    (parseDateExplicit (renderDmY ⟨2024, 1, 15⟩) = some ⟨2024, 1, 15⟩ ↔
      12 < (15 : Nat) ∨ (15 : Nat) = 1) :=
  c4_roundtrip_by_format ⟨2024, 1, 15⟩ (by decide)

/-! ## Claim C10: amount parsing truncates toward zero -/

/-- Decimal rendering of a natural number (claim side). -/
def natDigits (m : Nat) : Str :=
  if m = 0 then ['0'] else ((Nat.digits 10 m).map dchar).reverse

/-- Decimal rendering of an integer, Python `str` of an `int`. -/
def renderInt (n : Int) : Str :=
  if n < 0 then '-' :: natDigits n.natAbs else natDigits n.natAbs

theorem digitsVal_digits {ds : Str} (h : ∀ c ∈ ds, isDig c = true) (acc : Nat) :
    digitsVal ds acc = some (ds.foldl (fun a c => a * 10 + dval c) acc) := by
  unfold digitsVal
  induction ds generalizing acc with
  | nil => rfl
  | cons c rest ih =>
    have hc := h c (List.mem_cons_self c rest)
    simp only [digitsValGo, hc, if_true, List.foldl_cons]
    exact ih (fun x hx => h x (List.mem_cons_of_mem _ hx)) _

theorem pyIntNat_digits {l : Str} (h : ∀ c ∈ l, isDig c = true) (hne : l ≠ []) :
    pyIntNat l = some (l.foldl (fun a c => a * 10 + dval c) 0) := by
  cases l with
  | nil => exact absurd rfl hne
  | cons c rest =>
    have hc := h c (List.mem_cons_self c rest)
    simp only [pyIntNat, hc, if_true, List.foldl_cons]
    rw [digitsVal_digits (fun x hx => h x (List.mem_cons_of_mem _ hx))]
    rw [show (0 : Nat) * 10 + dval c = dval c by omega]

theorem foldl_ofDigits (L : List Nat) (hL : ∀ d ∈ L, d < 10) (acc : Nat) :
    ((L.map dchar).reverse).foldl (fun a c => a * 10 + dval c) acc =
      acc * 10 ^ L.length + Nat.ofDigits 10 L := by
  induction L generalizing acc with
  | nil => simp [Nat.ofDigits_nil]
  | cons d L ih =>
    have hd : d < 10 := hL d (List.mem_cons_self d L)
    have hL2 : ∀ x ∈ L, x < 10 := fun x hx => hL x (List.mem_cons_of_mem _ hx)
    simp only [List.map_cons, List.reverse_cons, List.foldl_append,
      List.foldl_cons, List.foldl_nil]
    rw [ih hL2, dval_dchar d hd, Nat.ofDigits_cons, List.length_cons, pow_succ]
    ring

theorem natDigits_all_digits (m : Nat) : ∀ c ∈ natDigits m, isDig c = true := by
  intro c hc
  unfold natDigits at hc
  split_ifs at hc with hm
  · simp only [List.mem_cons, List.not_mem_nil, or_false] at hc
    subst hc
    rfl
  · rw [List.mem_reverse, List.mem_map] at hc
    obtain ⟨d, hd, rfl⟩ := hc
    exact isDig_dchar d (Nat.digits_lt_base (by norm_num) hd)

theorem natDigits_ne_nil (m : Nat) : natDigits m ≠ [] := by
  unfold natDigits
  split_ifs with hm
  · simp
  · simp [Nat.digits_ne_nil_iff_ne_zero.mpr hm]

theorem pyIntNat_natDigits (m : Nat) : pyIntNat (natDigits m) = some m := by
  by_cases hm : m = 0
  · subst hm
    rfl
  · rw [pyIntNat_digits (natDigits_all_digits m) (natDigits_ne_nil m)]
    unfold natDigits
    rw [if_neg hm]
    rw [foldl_ofDigits _ (fun d hd => Nat.digits_lt_base (by norm_num) hd)]
    rw [Nat.ofDigits_digits]
    norm_num

theorem natDigits_no_space (m : Nat) : ∀ c ∈ natDigits m, isPySpace c = false :=
  fun c hc => isPySpace_of_isDig (natDigits_all_digits m c hc)

theorem renderInt_all_ok (n : Int) :
    ∀ c ∈ renderInt n, isPySpace c = false ∧ c ∉ amountNoise ∧ c ≠ '.' := by
  intro c hc
  unfold renderInt at hc
  have hdig : c = '-' ∨ isDig c = true := by
    split_ifs at hc with hn
    · rcases List.mem_cons.mp hc with h | h
      · exact Or.inl h
      · exact Or.inr (natDigits_all_digits _ c h)
    · exact Or.inr (natDigits_all_digits _ c hc)
  rcases hdig with rfl | hdig
  · exact ⟨rfl, by decide, by decide⟩
  · refine ⟨isPySpace_of_isDig hdig, ?_, ?_⟩
    · intro hmem
      simp only [amountNoise, List.mem_cons, List.not_mem_nil, or_false] at hmem
      rcases hmem with rfl | rfl | rfl | rfl | rfl <;> exact absurd hdig (by decide)
    · intro hmem
      subst hmem
      exact absurd hdig (by decide)

theorem pyInt_renderInt (n : Int) : pyInt (renderInt n) = some n := by
  have hstrip : pyStrip (renderInt n) = renderInt n :=
    pyStrip_eq_self (fun c hc => (renderInt_all_ok n c hc).1)
  by_cases hn : n < 0
  · have hform : renderInt n = '-' :: natDigits n.natAbs := by
      unfold renderInt
      rw [if_pos hn]
    unfold pyInt
    rw [hstrip, hform]
    dsimp only
    rw [if_pos rfl, pyIntNat_natDigits]
    simp only [Option.map_some, Option.some_bind, Option.bind_eq_bind]
    simp only [Option.bind, Option.map, pure]
    congr 1
    omega
  · have hform : renderInt n = natDigits n.natAbs := by
      unfold renderInt
      rw [if_neg hn]
    cases hE : natDigits n.natAbs with
    | nil => exact absurd hE (natDigits_ne_nil _)
    | cons c rest =>
      have hcdig : isDig c = true := by
        have := natDigits_all_digits n.natAbs c
        rw [hE] at this
        exact this (List.mem_cons_self c rest)
      have hcm : c ≠ '-' := by
        intro h
        subst h
        exact absurd hcdig (by decide)
      have hcp : c ≠ '+' := by
        intro h
        subst h
        exact absurd hcdig (by decide)
      unfold pyInt
      rw [hstrip, hform, hE]
      dsimp only
      rw [if_neg hcm, if_neg hcp, ← hE, pyIntNat_natDigits]
      simp only [Option.map_some, Option.some_bind, Option.bind_eq_bind]
      simp only [Option.bind, Option.map, pure]
      congr 1
      omega

theorem takeWhile_no_dot {l1 : Str} (h : ∀ c ∈ l1, c ≠ '.') (l2 : Str) :
    (l1 ++ '.' :: l2).takeWhile (fun c => decide (c ≠ '.')) = l1 := by
  induction l1 with
  | nil => simp [List.takeWhile]
  | cons c rest ih =>
    have hc := h c (List.mem_cons_self c rest)
    simp only [List.cons_append, List.takeWhile_cons, decide_eq_true hc, if_true]
    rw [ih (fun x hx => h x (List.mem_cons_of_mem _ hx))]

/-- C10: `CSVParser._parse_amount` truncates a decimal fraction toward
zero: for every integer `n` and digit string `frac`, the amount string
`"{n}.{frac}"` parses to exactly `n` (everything from the first `.` onward
is discarded before `int()` conversion, so `"-500.9"` gives `-500`, not
`-501`, and `"1.2.3"` gives `1`). -/
theorem c10_amount_truncates_toward_zero :
    (∀ (n : Int) (frac : Str), (∀ c ∈ frac, isDig c = true) →
      parseAmount (some (renderInt n ++ '.' :: frac)) = some n) ∧
    parseAmount (some "-500.9".data) = some (-500) ∧
    parseAmount (some "1.2.3".data) = some 1 := by
  refine ⟨?_, by decide, by decide⟩
  intro n frac hfrac
  have hall : ∀ c ∈ renderInt n ++ '.' :: frac,
      isPySpace c = false ∧ c ∉ amountNoise := by
    intro c hc
    rcases List.mem_append.mp hc with h | h
    · exact ⟨(renderInt_all_ok n c h).1, (renderInt_all_ok n c h).2.1⟩
    · rcases List.mem_cons.mp h with rfl | h
      · exact ⟨rfl, by decide⟩
      · exact ⟨isPySpace_of_isDig (hfrac c h), by
          intro hmem
          simp only [amountNoise, List.mem_cons, List.not_mem_nil, or_false] at hmem
          rcases hmem with rfl | rfl | rfl | rfl | rfl <;>
            exact absurd (hfrac _ h) (by decide)⟩
  have hstrip : pyStrip (renderInt n ++ '.' :: frac) = renderInt n ++ '.' :: frac :=
    pyStrip_eq_self (fun c hc => (hall c hc).1)
  have hne : renderInt n ++ '.' :: frac ≠ [] := by
    intro h
    have := congrArg List.length h
    simp at this
  have hfilter : (renderInt n ++ '.' :: frac).filter
      (fun c => decide (c ∉ amountNoise)) = renderInt n ++ '.' :: frac := by
    rw [List.filter_eq_self]
    intro c hc
    exact decide_eq_true (hall c hc).2
  have hdot : '.' ∈ renderInt n ++ '.' :: frac :=
    List.mem_append.mpr (Or.inr (List.mem_cons_self _ _))
  unfold parseAmount
  simp only [hstrip, if_neg hne, hfilter, decide_eq_true hdot, if_true]
  rw [takeWhile_no_dot (fun c hc => (renderInt_all_ok n c hc).2.2)]
  exact pyInt_renderInt n

/-- C10 witness: the truncation statement instantiated at `-500.9`. -/
theorem c10_witness : parseAmount (some (renderInt (-500) ++ '.' :: ['9'])) =
    some (-500) :=
  c10_amount_truncates_toward_zero.1 (-500) ['9'] (by decide)

/-! ## Claim C5: row-level error tolerance and the batch-failure condition -/

/-- The rows that convert successfully, in input order (claim side). -/
def rowSuccesses (cols : List Str) (rows : List (Nat × List (Option Str))) :
    List Transaction :=
  rows.filterMap (fun p => (parseRow cols p.1 p.2).toOption)

/-- The recorded row-level failures (row index and reason), in input order
(claim side). -/
def rowFailures (cols : List Str) (rows : List (Nat × List (Option Str))) :
    List (Nat × RowErr) :=
  rows.filterMap (fun p =>
    match parseRow cols p.1 p.2 with
    | .error e => some (p.1, e)
    | .ok _ => none)

theorem convertLoop_eq (cols : List Str) (rows : List (Nat × List (Option Str))) :
    convertLoop cols rows = (rowSuccesses cols rows, rowFailures cols rows) := by
  induction rows with
  | nil => rfl
  | cons p rest ih =>
    obtain ⟨idx, cells⟩ := p
    simp only [convertLoop, ih, rowSuccesses, rowFailures, List.filterMap_cons]
    cases h : parseRow cols idx cells <;> simp [Except.toOption, h]

/-- Six concrete rows: five well-formed and one (index 2) with a malformed
date. -/
def c5DemoRows : List (Nat × List (Option Str)) :=
  [(0, [some ['1'], some "2024/01/15".data, some "a".data, some "100".data,
        none, none, none, none, none, some "t1".data]),
   (1, [some ['1'], some "2024/01/16".data, some "b".data, some "-200".data,
        none, none, none, none, none, some "t2".data]),
   (2, [some ['1'], some "not-a-date".data, some "c".data, some "300".data,
        none, none, none, none, none, some "t3".data]),
   (3, [some ['0'], some "2024/01/18".data, some "d".data, some "400".data,
        none, none, none, none, none, some "t4".data]),
   (4, [some ['1'], some "2024/01/19".data, some "e".data, some "-500".data,
        none, none, none, none, none, some "t5".data]),
   (5, [some ['1'], some "2024/01/20".data, some "f".data, some "600".data,
        none, none, none, none, none, some "t6".data])]

theorem convertToTransactions_eq (cols : List Str)
    (rows : List (Nat × List (Option Str))) :
    convertToTransactions cols rows =
      if rowSuccesses cols rows = [] ∧ rowFailures cols rows ≠ [] then
        Except.error (CsvErr.allRowsFailed (rowFailures cols rows))
      else Except.ok (rowSuccesses cols rows, rowFailures cols rows) := by
  unfold convertToTransactions
  rw [convertLoop_eq]

/-- C5: a row whose conversion fails is recorded (with its index) and
skipped while the loop continues — the batch result is exactly the list of
successful conversions paired with the list of recorded failures — and the
whole batch fails exactly when no transaction was parsed and at least one
row-level error occurred.  In particular five well-formed rows plus one
malformed row yield five transactions, one recorded error and no
batch-level failure. -/
theorem c5_row_errors_skipped :
    (∀ (cols : List Str) (rows : List (Nat × List (Option Str))),
      convertToTransactions cols rows =
        if rowSuccesses cols rows = [] ∧ rowFailures cols rows ≠ [] then
          Except.error (CsvErr.allRowsFailed (rowFailures cols rows))
        else Except.ok (rowSuccesses cols rows, rowFailures cols rows)) ∧
    (convertToTransactions requiredCols c5DemoRows).map
      (fun p => (p.1.length, p.2.length)) = Except.ok (5, 1) := by
  exact ⟨convertToTransactions_eq, rfl⟩

/-! ## Claim C9: constructed transactions never have empty text fields -/

theorem mkTransaction_nonempty (c : Bool) (dt : Date) (ds : Str) (am : Int)
    (inst maj minr memo : Str) (tr : Bool) (tid : Str) :
    (mkTransaction c dt ds am inst maj minr memo tr tid).description ≠ [] ∧
    (mkTransaction c dt ds am inst maj minr memo tr tid).major_category ≠ [] ∧
    (mkTransaction c dt ds am inst maj minr memo tr tid).minor_category ≠ [] := by
  refine ⟨?_, ?_, ?_⟩ <;>
    · dsimp only [mkTransaction]
      split_ifs with h
      · decide
      · exact fun hh => h (Or.inl hh)

theorem parseRow_ok_nonempty {cols : List Str} {idx : Nat}
    {cells : List (Option Str)} {t : Transaction}
    (h : parseRow cols idx cells = .ok t) :
    t.description ≠ [] ∧ t.major_category ≠ [] ∧ t.minor_category ≠ [] := by
  unfold parseRow at h
  dsimp only at h
  repeat' split at h
  all_goals try exact Except.noConfusion h
  injection h with h2
  subst h2
  exact mkTransaction_nonempty _ _ _ _ _ _ _ _ _ _

/-- C9: every constructed `Transaction` has non-empty description and
category labels — empty (or `"nan"`) inputs are replaced by the placeholder
defaults in `__post_init__` — and consequently every transaction the batch
conversion returns has non-empty description, major category and minor
category. -/
theorem c9_text_fields_never_empty :
    (∀ (c : Bool) (dt : Date) (ds : Str) (am : Int)
       (inst maj minr memo : Str) (tr : Bool) (tid : Str),
      (mkTransaction c dt ds am inst maj minr memo tr tid).description ≠ [] ∧
      (mkTransaction c dt ds am inst maj minr memo tr tid).major_category ≠ [] ∧
      (mkTransaction c dt ds am inst maj minr memo tr tid).minor_category ≠ []) ∧
    (∀ (c : Bool) (dt : Date) (am : Int) (inst memo : Str) (tr : Bool) (tid : Str),
      (mkTransaction c dt [] am inst [] [] memo tr tid).description = unknownStr ∧
      (mkTransaction c dt [] am inst [] [] memo tr tid).major_category =
        uncategorizedStr ∧
      (mkTransaction c dt [] am inst [] [] memo tr tid).minor_category =
        uncategorizedStr) ∧
    (∀ (cols : List Str) (rows : List (Nat × List (Option Str)))
       (ts : List Transaction) (es : List (Nat × RowErr)),
      convertToTransactions cols rows = .ok (ts, es) →
      ∀ t ∈ ts, t.description ≠ [] ∧ t.major_category ≠ [] ∧
        t.minor_category ≠ []) := by
  refine ⟨mkTransaction_nonempty, ?_, ?_⟩
  · intro c dt am inst memo tr tid
    refine ⟨?_, ?_, ?_⟩ <;>
      · dsimp only [mkTransaction]
        rw [if_pos (Or.inl rfl)]
  · intro cols rows ts es h t ht
    rw [convertToTransactions_eq] at h
    by_cases hc : rowSuccesses cols rows = [] ∧ rowFailures cols rows ≠ []
    · rw [if_pos hc] at h
      exact absurd h (by simp)
    · rw [if_neg hc] at h
      injection h with h2
      injection h2 with h3 h4
      subst h3
      rw [rowSuccesses, List.mem_filterMap] at ht
      obtain ⟨p, _, hp⟩ := ht
      cases hres : parseRow cols p.1 p.2 with
      | error e => rw [hres] at hp; exact absurd hp (by simp [Except.toOption])
      | ok t2 =>
        rw [hres] at hp
        simp only [Except.toOption, Option.some.injEq] at hp
        subst hp
        exact parseRow_ok_nonempty hres

/-- A concrete row with empty description and category cells. -/
def c9Row : List (Option Str) :=
  [some ['1'], some "2024/01/15".data, none, some "-500".data,
   none, none, none, none, none, none]

/-- The transaction produced from `c9Row`. -/
def c9Txn : Transaction :=
  mkTransaction true ⟨2024, 1, 15⟩ [] (-500) [] [] [] [] false []

/-- C9 witness: the parser-output part of the claim applied to the
concrete one-row batch built from `c9Row`. -/
theorem c9_witness :
    c9Txn.description ≠ [] ∧ c9Txn.major_category ≠ [] ∧
      c9Txn.minor_category ≠ [] :=
  c9_text_fields_never_empty.2.2 requiredCols [(0, c9Row)] [c9Txn] [] (by rfl)
    c9Txn (List.mem_singleton.mpr rfl)

/-! ## Claims C6 and C7: aggregation properties of `get_summary` -/

theorem getSummary_fields {ts : List Transaction} (h : ts ≠ []) (e : Nat) :
    (getSummary ts e).total_income = summaryIncome ts ∧
    (getSummary ts e).total_expense = |summaryExpenseSum ts| ∧
    (getSummary ts e).expense_by_category = summaryEbc ts := by
  cases ts with
  | nil => exact absurd rfl h
  | cons t0 rest => exact ⟨rfl, rfl, rfl⟩

theorem sumValues_insertAdd (l : List (Str × Int)) (k : Str) (v : Int) :
    sumValues (insertAdd l k v) = sumValues l + v := by
  induction l with
  | nil => simp [insertAdd, sumValues]
  | cons p rest ih =>
    obtain ⟨k2, v2⟩ := p
    by_cases hk : k2 = k
    · simp [insertAdd, hk, sumValues]
      ring
    · simp only [insertAdd, if_neg hk, sumValues, List.map_cons, List.sum_cons]
      rw [show (rest.map (fun p => p.2)).sum = sumValues rest from rfl]
      rw [show ((insertAdd rest k v).map (fun p => p.2)).sum =
        sumValues (insertAdd rest k v) from rfl, ih]
      ring

theorem sumValues_insertDesc (x : Str × Int) (l : List (Str × Int)) :
    sumValues (insertDesc x l) = x.2 + sumValues l := by
  induction l with
  | nil => simp [insertDesc, sumValues]
  | cons y rest ih =>
    unfold insertDesc
    split_ifs with h
    · simp only [sumValues, List.map_cons, List.sum_cons] at *
      rw [ih]
      ring
    · simp only [sumValues, List.map_cons, List.sum_cons]

theorem sumValues_sortDesc (l : List (Str × Int)) :
    sumValues (sortDesc l) = sumValues l := by
  induction l with
  | nil => rfl
  | cons x rest ih =>
    simp only [sortDesc, List.foldr_cons]
    rw [show List.foldr insertDesc [] rest = sortDesc rest from rfl]
    rw [sumValues_insertDesc, ih]
    simp [sumValues]

theorem sumValues_foldl_addExpense (ts : List Transaction)
    (acc : List (Str × Int)) :
    sumValues (ts.foldl addExpense acc) = sumValues acc +
      ((ts.filter (fun t => decide (t.amount < 0))).map
        (fun t => |t.amount|)).sum := by
  induction ts generalizing acc with
  | nil => simp
  | cons t rest ih =>
    rw [List.foldl_cons, ih]
    by_cases h : t.amount < 0
    · rw [show addExpense acc t = insertAdd acc
        (if t.major_category = [] then uncategorizedStr else t.major_category)
        |t.amount| from by rw [addExpense, if_pos h]]
      rw [sumValues_insertAdd]
      rw [List.filter_cons_of_pos (by simpa using h)]
      simp only [List.map_cons, List.sum_cons]
      ring
    · rw [show addExpense acc t = acc from by rw [addExpense, if_neg h]]
      rw [List.filter_cons_of_neg (by simpa using h)]

theorem sum_nonpos_of_neg {l : List Int} (h : ∀ x ∈ l, x < 0) : l.sum ≤ 0 := by
  induction l with
  | nil => simp
  | cons z zs ih =>
    have hz := h z (List.mem_cons_self z zs)
    have := ih (fun y hy => h y (List.mem_cons_of_mem _ hy))
    simp only [List.sum_cons]
    omega

theorem sum_neg_abs {l : List Int} (h : ∀ x ∈ l, x < 0) :
    |l.sum| = (l.map (fun x => |x|)).sum := by
  induction l with
  | nil => simp
  | cons x rest ih =>
    have hx : x < 0 := h x (List.mem_cons_self x rest)
    have hrest : ∀ y ∈ rest, y < 0 := fun y hy => h y (List.mem_cons_of_mem _ hy)
    have hsum : rest.sum ≤ 0 := sum_nonpos_of_neg hrest
    simp only [List.sum_cons, List.map_cons]
    rw [← ih hrest]
    rw [abs_of_neg (by omega), abs_of_neg hx, abs_of_nonpos hsum]
    ring

/-- C6: a transaction marked as a transfer contributes nothing to
`total_income`, `total_expense` or `expense_by_category`: removing it from
any position of the transaction list leaves those three summary fields
unchanged, whatever its amount, category or `is_calculated` flag. -/
theorem c6_transfer_contributes_nothing :
    ∀ (l1 l2 : List Transaction) (t : Transaction) (e : Nat),
      t.is_transfer = true →
      (getSummary (l1 ++ t :: l2) e).total_income =
        (getSummary (l1 ++ l2) e).total_income ∧
      (getSummary (l1 ++ t :: l2) e).total_expense =
        (getSummary (l1 ++ l2) e).total_expense ∧
      (getSummary (l1 ++ t :: l2) e).expense_by_category =
        (getSummary (l1 ++ l2) e).expense_by_category := by
  intro l1 l2 t e htr
  have hc : countableOf (l1 ++ t :: l2) = countableOf (l1 ++ l2) := by
    simp [countableOf, List.filter_append, List.filter_cons, htr]
  have hne1 : l1 ++ t :: l2 ≠ [] := by simp
  obtain ⟨hi1, he1, hb1⟩ := getSummary_fields hne1 e
  by_cases h2 : l1 ++ l2 = []
  · have hcc : countableOf (l1 ++ t :: l2) = [] := by
      rw [hc, h2]
      rfl
    rw [hi1, he1, hb1, h2]
    refine ⟨?_, ?_, ?_⟩
    · simp [summaryIncome, hcc, getSummary]
    · simp [summaryExpenseSum, hcc, getSummary]
    · simp [summaryEbc, hcc, getSummary, sortDesc]
  · obtain ⟨hi2, he2, hb2⟩ := getSummary_fields h2 e
    rw [hi1, he1, hb1, hi2, he2, hb2]
    unfold summaryIncome summaryExpenseSum summaryEbc
    rw [hc]
    exact ⟨rfl, rfl, rfl⟩

/-- A concrete non-transfer expense transaction. -/
def c6Normal : Transaction :=
  mkTransaction true ⟨2024, 1, 15⟩ "x".data (-300) [] "食費".data [] [] false []

/-- A concrete transfer transaction with a large negative amount. -/
def c6Transfer : Transaction :=
  mkTransaction true ⟨2024, 1, 16⟩ "y".data (-999) [] "食費".data [] [] true []

/-- C6 witness: inserting the concrete transfer before the concrete normal
transaction changes none of the three aggregates. -/
theorem c6_witness :
    (getSummary ([] ++ c6Transfer :: [c6Normal]) 0).total_income =
      (getSummary ([] ++ [c6Normal]) 0).total_income ∧
    (getSummary ([] ++ c6Transfer :: [c6Normal]) 0).total_expense =
      (getSummary ([] ++ [c6Normal]) 0).total_expense ∧
    (getSummary ([] ++ c6Transfer :: [c6Normal]) 0).expense_by_category =
      (getSummary ([] ++ [c6Normal]) 0).expense_by_category :=
  c6_transfer_contributes_nothing [] [c6Normal] c6Transfer 0 rfl

/-- C7: the values of `expense_by_category` sum to exactly `total_expense`;
both are the absolute value of the summed negative countable amounts. -/
theorem c7_category_sum_equals_expense :
    ∀ (ts : List Transaction) (e : Nat),
      sumValues ((getSummary ts e).expense_by_category) =
        (getSummary ts e).total_expense := by
  intro ts e
  cases ts with
  | nil => rfl
  | cons t0 rest =>
    obtain ⟨hi, he, hb⟩ := getSummary_fields (List.cons_ne_nil t0 rest) e
    rw [he, hb]
    unfold summaryEbc summaryExpenseSum
    rw [sumValues_sortDesc, sumValues_foldl_addExpense]
    have hneg : ∀ x ∈ ((countableOf (t0 :: rest)).filter
        (fun t => decide (t.amount < 0))).map (fun t => t.amount), x < 0 := by
      intro x hx
      rw [List.mem_map] at hx
      obtain ⟨u, hu, rfl⟩ := hx
      exact of_decide_eq_true (List.mem_filter.mp hu).2
    rw [sum_neg_abs hneg, List.map_map]
    simp [sumValues, Function.comp_def]

/-! ## Claim C8: missing-column diagnostics -/

/-- C8 (corrected): for every decoded table with at least one data row, if a
required label is absent from the columns then validation fails with a
`missingColumns` error whose payload contains every absent required label,
and which pairs each missing label with every present column sharing its
first two characters.  (A table with zero data rows instead fails with the
`noRows` error, which names no columns — see the counterexample.) -/
theorem c8_missing_columns : ∀ tbl : RawTable, tbl.rows ≠ [] →
    ∀ c ∈ requiredCols, c ∉ tbl.cols →
    validateColumns tbl = Except.error
      (CsvErr.missingColumns (missingOf tbl.cols)
        (suggestionsFor (missingOf tbl.cols) tbl.cols)) ∧
    c ∈ missingOf tbl.cols ∧
    (∀ a ∈ tbl.cols, a.take 2 = c.take 2 →
      (c, a) ∈ suggestionsFor (missingOf tbl.cols) tbl.cols) := by
  intro tbl hrows c hreq habs
  have hmem : c ∈ missingOf tbl.cols := by
    rw [missingOf, List.mem_filter]
    exact ⟨hreq, decide_eq_true habs⟩
  have hne : missingOf tbl.cols ≠ [] := List.ne_nil_of_mem hmem
  refine ⟨?_, hmem, ?_⟩
  · unfold validateColumns
    rw [if_neg hrows]
    dsimp only
    rw [if_neg hne]
  · intro a ha hpre
    rw [suggestionsFor, List.mem_flatten]
    refine ⟨(tbl.cols.filter (fun x => decide (c.take 2 = x.take 2))).map
      (fun x => (c, x)), ?_, ?_⟩
    · rw [List.mem_map]
      exact ⟨c, hmem, rfl⟩
    · rw [List.mem_map]
      refine ⟨a, ?_, rfl⟩
      rw [List.mem_filter]
      exact ⟨ha, decide_eq_true hpre.symm⟩

/-- A decoded table missing the amount column and carrying zero data rows. -/
def c8Table : RawTable :=
  ⟨["計算対象".data, "日付".data, "内容".data, "保有金融機関".data,
    "大項目".data, "中項目".data, "メモ".data, "振替".data, "ID".data], []⟩

/-- C8 counterexample: a decoded table that is missing the required amount
column but has zero data rows fails with the `noRows` error — not with a
column-validation error naming the missing column, as the claim requires of
every such table. -/
theorem c8_counterexample :
    ("金額（円）".data ∈ requiredCols ∧ "金額（円）".data ∉ c8Table.cols) ∧
    validateColumns c8Table = Except.error CsvErr.noRows :=
  ⟨by decide, rfl⟩

/-- A decoded table with one data row whose amount column is mislabelled
`金額` (sharing the two-character prefix of the required `金額（円）`). -/
def c8WTable : RawTable :=
  ⟨["計算対象".data, "日付".data, "内容".data, "金額".data,
    "保有金融機関".data, "大項目".data, "中項目".data, "メモ".data,
    "振替".data, "ID".data], [[some ['1']]]⟩

/-- C8 witness: the amended statement applied to `c8WTable`, whose typo
column `金額` is suggested for the missing `金額（円）`. -/
theorem c8_witness :
    validateColumns c8WTable = Except.error
      (CsvErr.missingColumns (missingOf c8WTable.cols)
        (suggestionsFor (missingOf c8WTable.cols) c8WTable.cols)) ∧
    "金額（円）".data ∈ missingOf c8WTable.cols ∧
    ("金額（円）".data, "金額".data) ∈
      suggestionsFor (missingOf c8WTable.cols) c8WTable.cols := by
  have h := c8_missing_columns c8WTable (by decide) "金額（円）".data
    (by decide) (by decide)
  exact ⟨h.1, h.2.1, h.2.2 "金額".data (by decide) (by decide)⟩

/-! ## Claim C1: header-only files and the empty summary -/

/-- C1 (corrected): a decoded table with zero data rows is rejected by
column validation with the `noRows` error — `parse()` raises a
`CSVParseError` instead of succeeding — while the summary of an empty
transaction list does have zero transactions, all-zero/empty aggregates and
a null date range (that branch is reachable, e.g. when every data row is
blank and dropped by preprocessing). -/
theorem c1_headers_only_summary :
    (∀ tbl : RawTable, tbl.rows = [] → parseTable tbl = .error .noRows) ∧
    (∀ e : Nat, getSummary [] e = ⟨0, none, 0, 0, 0, [], [], e⟩) := by
  constructor
  · intro tbl h
    have hv : validateColumns tbl = .error .noRows := by
      unfold validateColumns
      rw [if_pos h]
    unfold parseTable
    rw [hv]
  · intro e
    rfl

set_option maxRecDepth 4000 in
/-- C1 counterexample: the bytes of a file holding exactly the ten required
headers and zero data rows make the whole ingestion fail with the no-rows
`CSVParseError`, where the claim demands success with an empty summary. -/
theorem c1_counterexample :
    parseBytes headersOnlyBytes = Except.error CsvErr.noRows := by
  rfl

/-- C1 witness: the amended statement at the concrete header-only table and
at error count 0. -/
theorem c1_witness :
    parseTable ⟨requiredCols, []⟩ = Except.error CsvErr.noRows ∧
    getSummary [] 0 = ⟨0, none, 0, 0, 0, [], [], 0⟩ :=
  ⟨c1_headers_only_summary.1 ⟨requiredCols, []⟩ rfl,
   c1_headers_only_summary.2 0⟩

/-! ## Claim C2: UTF-8 files with a byte-order mark -/

set_option maxRecDepth 4000 in
/-- C2 (code bug): for a well-formed UTF-8 file with a leading byte-order
mark and exactly the ten required header labels, the encoding loop tries
plain `utf-8` first, which decodes successfully but leaves U+FEFF glued to
the first header label; `utf-8-sig`, although in `SUPPORTED_ENCODINGS`, is
therefore never reached, and column validation rejects the file with a
missing-columns error for `計算対象` (with no prefix suggestion, since the
mark changes the two-character prefix as well), where claim and spec
require the file to be accepted. -/
theorem c2_bom_file_rejected :
    detectAndDecode bomFileBytes =
      some ('﻿' :: (headerLine ++ '\n' :: demoDataLine)) ∧
    parseBytes bomFileBytes =
      Except.error (CsvErr.missingColumns ["計算対象".data] []) :=
  ⟨rfl, rfl⟩

/-! ## Claim C3: empty identifier cells -/

/-- A row whose `ID` cell is empty (NaN after `na_values`). -/
def c3Row : List (Option Str) :=
  [some ['1'], some "2024/01/15".data, some "a".data, some "-500".data,
   none, none, none, none, none, none]

/-- The same row restricted to a column set without `ID`. -/
def c3RowShort : List (Option Str) :=
  [some ['1'], some "2024/01/15".data, some "a".data, some "-500".data,
   none, none, none, none, none]

/-- C3 (code bug): when the `ID` column is present (as it always is after
validation) but the cell is empty, `row.get("ID", f"unknown_{row_idx}")`
returns the NaN cell — not the default — and `_safe_string` turns it into
the empty string, so the constructed transaction's identifier is `""`
rather than the claimed positional placeholder.  The second conjunct shows
the intended `unknown_{row_idx}` fallback in the source is reachable only
when the `ID` column itself is absent, which validation rules out. -/
theorem c3_empty_id_yields_empty_string :
    (parseRow requiredCols 0 c3Row).map (fun t => t.transaction_id) =
      Except.ok [] ∧
    (parseRow (requiredCols.filter (fun c => decide (c ≠ "ID".data))) 0
        c3RowShort).map (fun t => t.transaction_id) =
      Except.ok ("unknown_0".data) :=
  ⟨rfl, rfl⟩

end MFA
